import Mathlib

/-!
# Verification of the `wajeht/screenshot` core

A shallow embedding of the core of the screenshot service: the domain
blocklist and its suffix matching, the per-sub-resource interception policy,
the SQLite-backed screenshot cache repository, the ETag computation, the
dimension parsing, the bot filter, and the request handler's control flow.
Every definition is translated from the Go source (`main.go` and the schema
migration); machine integers are modelled as `Int`/`Nat` and the SQLite
table as an explicit list of rows subject to the schema's constraints.
-/

set_option linter.unnecessarySeqFocus false

namespace Screenshot

/-! ## String helpers (byte-level, mirroring Go's `strings` package usage) -/

/-- UTF-8 encoding of a single character, as a list of byte values.
Mirrors what Go's `[]byte(s)` conversion produces per rune. -/
def charUtf8 (c : Char) : List Nat :=
  let n := c.toNat
  if n < 0x80 then [n]
  else if n < 0x800 then [0xC0 + n / 0x40, 0x80 + n % 0x40]
  else if n < 0x10000 then
    [0xE0 + n / 0x1000, 0x80 + (n / 0x40) % 0x40, 0x80 + n % 0x40]
  else
    [0xF0 + n / 0x40000, 0x80 + (n / 0x1000) % 0x40,
     0x80 + (n / 0x40) % 0x40, 0x80 + n % 0x40]

/-- The UTF-8 bytes of a string, as Go's `[]byte(s)`. -/
def strBytes (s : String) : List Nat :=
  s.data.foldr (fun c acc => charUtf8 c ++ acc) []

/-- `strings.Split(host, ".")` on the character list: split at every `'.'`,
keeping empty pieces; the empty string yields `[""]`. -/
def splitOnDotAux : List Char → List Char → List String
  | [], acc => [String.mk acc.reverse]
  | c :: rest, acc =>
      if c = '.' then String.mk acc.reverse :: splitOnDotAux rest []
      else splitOnDotAux rest (c :: acc)

/-- `strings.Split(host, ".")`. -/
def splitOnDot (s : String) : List String :=
  splitOnDotAux s.data []

/-- `strings.Join(parts, ".")`. -/
def joinDots : List String → String
  | [] => ""
  | [s] => s
  | s :: rest => s ++ "." ++ joinDots rest

/-- `strings.Contains(s, pat)`: substring containment. -/
def containsSub (pat s : String) : Bool :=
  decide (pat.data <:+: s.data)

/-- `strings.HasPrefix(s, pat)`. -/
def strHasPrefix (pat s : String) : Bool :=
  decide (pat.data <+: s.data)

/-! ## Domain blocklist (`Blocklist`, `NewBlocklist`, `IsBlocked`) -/

/-- The hand-curated critical tracker/analytics domains (`criticalDomains`). -/
def criticalDomains : List String :=
  ["google-analytics.com", "googletagmanager.com", "hotjar.com",
   "mixpanel.com", "segment.io", "newrelic.com", "nr-data.net", "sentry.io",
   "doubleclick.net", "googlesyndication.com", "adservice.google.com",
   "facebook.net", "ads.linkedin.com", "accounts.google.com",
   "platform.linkedin.com", "connect.facebook.net", "ponf.linkedin.com",
   "px.ads.linkedin.com", "bat.bing.com", "tr.snapchat.com",
   "li.protechts.net", "challenges.cloudflare.com",
   "intercom.io", "crisp.chat", "drift.com", "zendesk.com"]

/-- `Blocklist.IsBlocked`: exact membership, then the Go loop
`for i := 1; i < len(parts)-1; i++` testing `strings.Join(parts[i:], ".")`.
The domain set is modelled as a list with membership semantics. -/
def isBlocked (domains : List String) (host : String) : Bool :=
  domains.contains host ||
    (let parts := splitOnDot host
     (List.range parts.length).any fun i =>
       decide (1 ≤ i) && decide (i + 1 < parts.length) &&
         domains.contains (joinDots (parts.drop i)))

/-- `NewBlocklist`: starts from the critical set, then requires the embedded
`filters/domains.json` to read and parse; `none` models a read/parse failure,
in which case construction returns an error (the partially built set is
discarded by the caller). -/
def newBlocklist (fileDomains : Option (List String)) : Except String (List String) :=
  match fileDomains with
  | none => Except.error "reading or parsing domains.json"
  | some ds => Except.ok (criticalDomains ++ ds)

/-- The blocklist `NewServer` actually installs: the constructed set on
success, and a fresh empty domain set when `NewBlocklist` fails
(`blocklist = &Blocklist{domains: make(map[string]struct{})}`). -/
def serverBlocklist (fileDomains : Option (List String)) : List String :=
  match newBlocklist fileDomains with
  | Except.ok ds => ds
  | Except.error _ => []

/-! ## Configuration (`Config`, `DefaultConfig`) -/

/-- The server configuration (`Config`); time.Duration fields that never
influence a modelled decision are omitted. -/
structure Config where
  port : String
  screenshotQual : Int
  cacheTTLSecs : Int
  maxWidth : Int
  maxHeight : Int
  maxConcurrent : Int
  minUserAgentLen : Int
  debug : Bool
  blockFonts : Bool
  blockMedia : Bool
  deriving Repr, DecidableEq

/-- `DefaultConfig`, as a function of the `APP_PORT` and `APP_ENV`
environment variables (empty string models an unset variable). -/
def defaultConfig (envPort envEnv : String) : Config :=
  let port := if envPort = "" then "80" else envPort
  let env := if envEnv = "" then "development" else envEnv
  { port := ":" ++ port
    screenshotQual := 50
    cacheTTLSecs := 300
    maxWidth := 1920
    maxHeight := 1920
    maxConcurrent := 10
    minUserAgentLen := 20
    debug := env ≠ "production"
    blockFonts := true
    blockMedia := true }

/-! ## Interception policy (`shouldBlock`, `extractHost`) -/

/-- Chromium's network resource types (`proto.NetworkResourceType`),
restricted to the constructors the program mentions plus the remaining
common ones. -/
inductive ResourceType where
  | document | stylesheet | image | media | font | script | textTrack
  | xhr | fetch | ping | prefetch | eventSource | webSocket | manifest
  | signedExchange | cspViolationReport | preflight | other
  deriving Repr, DecidableEq

/-- `blockedExtensions`. -/
def blockedExtensions : List String :=
  [".mp4", ".webm", ".mp3", ".wav", ".ogg", ".ico", ".webmanifest"]

/-- `blockedPaths`. -/
def blockedPaths : List String :=
  ["apple-touch-icon", "android-chrome", "manifest.json"]

/-- The suffix of the character list starting at its last `'.'` (inclusive),
when one exists: `reqURL[strings.LastIndexByte(reqURL, '.'):]`. -/
def extAt : List Char → Option (List Char)
  | [] => none
  | c :: rest =>
      match extAt rest with
      | some e => some e
      | none => if c = '.' then some (c :: rest) else none

/-- The blocked-extension test of `shouldBlock`: the substring from the last
`'.'` to the end of the URL is a member of `blockedExtensions`. -/
def hasBlockedExtension (reqURL : String) : Bool :=
  match extAt reqURL.data with
  | some e => blockedExtensions.contains (String.mk e)
  | none => false

/-- First index at which `pat` occurs in `s` (`strings.Index`). -/
def indexOfSub (pat : List Char) : List Char → Option Nat
  | [] => if pat = [] then some 0 else none
  | c :: rest =>
      if pat.isPrefixOf (c :: rest) then some 0
      else (indexOfSub pat rest).map (· + 1)

/-- `extractHost`: strip everything through `"://"`, truncate at the first
`'/'`, truncate at the first `':'`, lowercase. -/
def extractHost (rawURL : String) : String :=
  let cs := rawURL.data
  let cs := match indexOfSub [':', '/', '/'] cs with
    | some i => cs.drop (i + 3)
    | none => cs
  let cs := cs.takeWhile (fun c => c ≠ '/')
  let cs := cs.takeWhile (fun c => c ≠ ':')
  String.mk (cs.map Char.toLower)

/-- The resource types blocked unconditionally by the `switch` in
`shouldBlock`. -/
def unconditionalBlockTypes : List ResourceType :=
  [.xhr, .fetch, .ping, .prefetch, .signedExchange, .eventSource, .manifest]

/-- `Server.shouldBlock`, with the branches in source order. -/
def shouldBlock (cfg : Config) (domains : List String)
    (reqURL : String) (t : ResourceType) : Bool :=
  if cfg.blockFonts && (t == ResourceType.font) then true
  else if cfg.blockMedia && (t == ResourceType.media || t == ResourceType.webSocket) then true
  else if cfg.blockMedia && hasBlockedExtension reqURL then true
  else if unconditionalBlockTypes.contains t then true
  else if blockedPaths.any (fun p => containsSub p reqURL) then true
  else if !(t == ResourceType.stylesheet) && !(t == ResourceType.document) &&
      isBlocked domains (extractHost reqURL) then true
  else false

/-! ## Cache repository (`ScreenshotRepository`, schema of migration 001) -/

/-- One row of the `screenshots` table (the generated `id` and
`created_at` columns play no role in any modelled query). -/
structure Row where
  url : String
  bytes : List Nat
  contentType : String
  width : Int
  height : Int
  deriving Repr, DecidableEq

/-- `ScreenshotRepository.Save`: `INSERT OR REPLACE INTO screenshots ...`.
The schema declares `url TEXT NOT NULL UNIQUE`, so the REPLACE conflict
target is the `url` column alone: any existing row with the same url is
deleted and the fresh row inserted. -/
def save (tbl : List Row) (u : String) (d : List Nat) (ct : String)
    (w h : Int) : List Row :=
  ⟨u, d, ct, w, h⟩ :: tbl.filter (fun r => !(r.url == u))

/-- `ScreenshotRepository.Get`: `SELECT data, content_type FROM screenshots
WHERE url = ? AND width = ? AND height = ?`; `none` models `ErrNotFound`. -/
def get (tbl : List Row) (u : String) (w h : Int) : Option (List Nat × String) :=
  match tbl.find? (fun r => r.url == u && r.width == w && r.height == h) with
  | some r => some (r.bytes, r.contentType)
  | none => none

/-! ## ETag (`generateETag`): FNV-1a 64, base-36, hour-bucketed time -/

/-- The FNV-1a 64-bit prime. -/
def fnvPrime : Nat := 1099511628211

/-- The FNV-1a 64-bit offset basis. -/
def fnvOffset : Nat := 14695981039346656037

/-- One FNV-1a step: xor in the byte, multiply by the prime modulo 2^64. -/
def fnvStep (h b : Nat) : Nat := ((h ^^^ b) * fnvPrime) % 2 ^ 64

/-- `fnv.New64a()` followed by writes of the given bytes and `Sum64()`. -/
def fnv64a (bytes : List Nat) : Nat := bytes.foldl fnvStep fnvOffset

/-- Digit character for base-36 (`0-9a-z`), as used by
`strconv.FormatUint(_, 36)`. -/
def base36digit (n : Nat) : Char :=
  if n < 10 then Char.ofNat (48 + n) else Char.ofNat (87 + n)

/-- Big-endian base-36 digit characters of `n` prepended to `acc`; the
fuel argument dominates the digit count so the recursion is structural. -/
def base36Aux : Nat → Nat → List Char → List Char
  | 0, _, acc => acc
  | fuel + 1, n, acc =>
      if n < 36 then base36digit n :: acc
      else base36Aux fuel (n / 36) (base36digit (n % 36) :: acc)

/-- `strconv.FormatUint(n, 36)`. -/
def natToBase36 (n : Nat) : String := String.mk (base36Aux (n + 1) n [])

/-- A wall-clock instant at the granularity the program observes: the
`"2006-01-02-15"` format keeps year, month, day and hour; minutes and
seconds exist on the clock but are discarded by the format. -/
structure Time where
  year : Nat
  month : Nat
  day : Nat
  hour : Nat
  minute : Nat
  second : Nat
  deriving Repr, DecidableEq

/-- A calendar-valid instant with a four-digit year. -/
def Time.Valid (t : Time) : Prop :=
  t.year ≤ 9999 ∧ 1 ≤ t.month ∧ t.month ≤ 12 ∧ 1 ≤ t.day ∧
    t.day ≤ 31 ∧ t.hour ≤ 23 ∧ t.minute ≤ 59 ∧ t.second ≤ 59

instance (t : Time) : Decidable t.Valid := by
  unfold Time.Valid; infer_instance

/-- Gregorian leap-year rule. -/
def isLeap (y : Nat) : Bool :=
  (y % 4 == 0 && y % 100 != 0) || (y % 400 == 0)

/-- Days in a month of the Gregorian calendar. -/
def daysInMonth (y m : Nat) : Nat :=
  if m == 2 then (if isLeap y then 29 else 28)
  else if m == 4 || m == 6 || m == 9 || m == 11 then 30
  else 31

/-- The same instant one hour later (the start of the following hour
bucket). -/
def Time.nextHour (t : Time) : Time :=
  if t.hour < 23 then { t with hour := t.hour + 1 }
  else if t.day < daysInMonth t.year t.month then
    { t with day := t.day + 1, hour := 0 }
  else if t.month < 12 then
    { t with month := t.month + 1, day := 1, hour := 0 }
  else
    { year := t.year + 1, month := 1, day := 1, hour := 0,
      minute := t.minute, second := t.second }

/-- Decimal digit characters of `n`, zero-padded on the left to width `w`
(the fixed-width fields of Go's reference layout `2006-01-02-15`). -/
def padDigits (w n : Nat) (acc : List Char) : List Char :=
  match w with
  | 0 => acc
  | w + 1 => padDigits w (n / 10) (Char.ofNat (48 + n % 10) :: acc)

/-- `time.Now().Format("2006-01-02-15")`. -/
def formatHour (t : Time) : String :=
  String.mk (padDigits 4 t.year [] ++ '-' :: padDigits 2 t.month [] ++
    '-' :: padDigits 2 t.day [] ++ '-' :: padDigits 2 t.hour [])

/-- `generateETag`: FNV-1a over the url bytes, the `"w:h"` dimension string
and the hour-bucketed timestamp, rendered in base 36. -/
def generateETag (url : String) (width height : Int) (t : Time) : String :=
  natToBase36 (fnv64a (strBytes url ++
    strBytes (toString width ++ ":" ++ toString height) ++
    strBytes (formatHour t)))

/-! ## Dimension parsing (`presets`, `parseIntParam`, `parseDimensions`) -/

/-- The preset dimension table (`presets`). -/
def presets : List (String × Int × Int) :=
  [("thumb", 800, 420), ("og", 1200, 630), ("twitter", 1200, 675),
   ("square", 1080, 1080), ("mobile", 375, 667), ("desktop", 1920, 1080)]

/-- Lookup in the preset table. -/
def presetLookup (name : String) : Option (Int × Int) :=
  (presets.find? (fun p => p.1 == name)).map (·.2)

/-- All-decimal-digits parse of a character list (empty list fails). -/
def digitsToNat : List Char → Option Nat
  | [] => none
  | cs =>
      if cs.all (fun c => c.isDigit) then
        some (cs.foldl (fun n c => n * 10 + (c.toNat - 48)) 0)
      else none

/-- `strconv.Atoi`: optional sign, all digits, 64-bit range; anything else
(or an empty string) is an error, modelled as `none`. -/
def atoi (s : String) : Option Int :=
  match s.data with
  | '+' :: rest =>
      (digitsToNat rest).bind fun n =>
        if n ≤ 2 ^ 63 - 1 then some (n : Int) else none
  | '-' :: rest =>
      (digitsToNat rest).bind fun n =>
        if n ≤ 2 ^ 63 then some (-(n : Int)) else none
  | cs =>
      (digitsToNat cs).bind fun n =>
        if n ≤ 2 ^ 63 - 1 then some (n : Int) else none

/-- `parseIntParam`: the raw query value, with the default used when the
value is absent, unparsable or non-positive, and the maximum imposed. -/
def parseIntParam (val : String) (defaultVal maxVal : Int) : Int :=
  if val = "" then defaultVal
  else
    match atoi val with
    | none => defaultVal
    | some n =>
        if n ≤ 0 then defaultVal
        else if n > maxVal then maxVal
        else n

/-- `Server.parseDimensions`: preset (defaulting to `thumb`) then explicit
`width`/`height` query parameters, each clamped by the configuration. -/
def parseDimensions (cfg : Config)
    (presetParam widthParam heightParam : String) : Int × Int :=
  let dim : Int × Int := (800, 420)
  let dim := if presetParam ≠ "" then
      match presetLookup presetParam with
      | some p => p
      | none => dim
    else dim
  let w := if widthParam ≠ "" then
      parseIntParam widthParam dim.1 cfg.maxWidth else dim.1
  let h := if heightParam ≠ "" then
      parseIntParam heightParam dim.2 cfg.maxHeight else dim.2
  (w, h)

/-! ## Bot filter (`botPattern`, `isBot`) -/

/-- The literal alternatives of `botPattern` (a case-insensitive
alternation of plain substrings). -/
def botKeywords : List String :=
  ["bot", "crawler", "spider", "crawling", "googlebot", "bingbot", "yandex",
   "baidu", "duckduckbot", "slurp", "ia_archiver", "facebookexternalhit",
   "twitterbot", "linkedinbot", "embedly", "quora", "pinterest", "slackbot",
   "discordbot", "telegrambot", "whatsapp", "applebot", "semrush", "ahref",
   "mj12bot", "dotbot", "petalbot", "curl", "wget", "python", "httpie",
   "postman", "insomnia", "java", "ruby", "perl", "php", "go-http-client",
   "scrapy", "httpclient", "apache-http", "okhttp"]

/-- `botPattern.MatchString`: the `(?i)` alternation of literals matches
exactly when some keyword occurs in the lowercased user agent. -/
def matchesBotPattern (ua : String) : Bool :=
  let low := String.mk (ua.data.map Char.toLower)
  botKeywords.any fun k => containsSub k low

/-- `Server.isBot`: byte length below the configured minimum, or a bot
pattern match. -/
def isBot (cfg : Config) (ua : String) : Bool :=
  decide (((strBytes ua).length : Int) < cfg.minUserAgentLen) ||
    matchesBotPattern ua

/-! ## The screenshot handler (`Server.handleScreenshot`)

The handler's control flow is modelled as a pure function of the request
and of a `World` supplying the outcomes of its effectful collaborators
(repository contents, semaphore availability, capture pipeline result,
`Save` success, wall clock).  Alongside the response and the resulting
table, the model returns the ordered list of collaborator invocations, so
that "X is never invoked" claims are statable. -/

/-- The interesting query parameters and headers of a capture request;
an absent query parameter is the empty string, as with `URL.Query().Get`. -/
structure Request where
  userAgent : String
  urlParam : String
  presetParam : String
  widthParam : String
  heightParam : String
  fullParam : String
  ifNoneMatch : String
  deriving Repr, DecidableEq

/-- Outcomes of the handler's effectful collaborators. -/
structure World where
  table : List Row
  hasRepo : Bool
  permitFree : Bool
  captureResult : Except String (List Nat)
  saveFails : Bool
  now : Time
  deriving Repr

/-- A collaborator invocation performed by the handler. -/
inductive Effect where
  | cacheGet | acquire | runCapture | cacheSave
  deriving Repr, DecidableEq

/-- The handler's outward response. -/
inductive HResponse where
  | forbidden
  | indexPage
  | notModified
  | cachedImage (bytes : List Nat) (contentType : String) (etag : String)
  | freshImage (bytes : List Nat) (etag : String)
  | unavailable
  | gatewayTimeout
  | internalError
  deriving Repr, DecidableEq

/-- Scheme normalization at the top of the handler: prepend `https://`
unless an `http://` or `https://` prefix is already present. -/
def normalizeScheme (u : String) : String :=
  if strHasPrefix "http://" u || strHasPrefix "https://" u then u
  else "https://" ++ u

/-- `Server.handleCaptureError`: a message containing `"timeout"` maps to
504, anything else to 500. -/
def captureErrorResponse (e : String) : HResponse :=
  if containsSub "timeout" e then HResponse.gatewayTimeout
  else HResponse.internalError

/-- `Server.handleScreenshot`: bot filter, missing-url index page, scheme
normalization, dimension resolution, ETag short-circuit, cache lookup,
semaphore acquisition (or cancellation), capture, best-effort save,
response. -/
def handleScreenshot (cfg : Config) (req : Request) (w : World) :
    HResponse × List Row × List Effect :=
  if isBot cfg req.userAgent then (HResponse.forbidden, w.table, [])
  else if req.urlParam = "" then (HResponse.indexPage, w.table, [])
  else
    let targetURL := normalizeScheme req.urlParam
    let dims := parseDimensions cfg req.presetParam req.widthParam req.heightParam
    let fullPage := req.fullParam == "true"
    let etag := generateETag targetURL dims.1 dims.2 w.now
    if req.ifNoneMatch == etag then (HResponse.notModified, w.table, [])
    else
      let consultCache := w.hasRepo && !fullPage
      let preEffects := if consultCache then [Effect.cacheGet] else []
      match (if consultCache then get w.table targetURL dims.1 dims.2 else none) with
      | some (d, ct) => (HResponse.cachedImage d ct etag, w.table, preEffects)
      | none =>
          if !w.permitFree then
            (HResponse.unavailable, w.table, preEffects ++ [Effect.acquire])
          else
            match w.captureResult with
            | Except.error e =>
                (captureErrorResponse e, w.table,
                 preEffects ++ [Effect.acquire, Effect.runCapture])
            | Except.ok shot =>
                if consultCache then
                  (HResponse.freshImage shot etag,
                   if w.saveFails then w.table
                   else save w.table targetURL shot "image/webp" dims.1 dims.2,
                   preEffects ++ [Effect.acquire, Effect.runCapture, Effect.cacheSave])
                else
                  (HResponse.freshImage shot etag, w.table,
                   preEffects ++ [Effect.acquire, Effect.runCapture])

/-! ## Repository lemmas -/

/-- No row of the tail that `save` keeps can answer a query for the saved
url: `INSERT OR REPLACE` removed every row whose url collides. -/
lemma find?_filter_ne (tbl : List Row) (u : String) (w h : Int) :
    (tbl.filter (fun r => !(r.url == u))).find?
      (fun r => r.url == u && r.width == w && r.height == h) = none := by
  rw [List.find?_eq_none]
  intro r hr
  have h2 := (List.mem_filter.mp hr).2
  simp only [Bool.not_eq_true', beq_eq_false_iff_ne, ne_eq] at h2
  simp [h2]

/-- Unfolding of `Get` over a cons cell. -/
lemma get_cons (r : Row) (tbl : List Row) (u : String) (w h : Int) :
    get (r :: tbl) u w h =
      if r.url = u ∧ r.width = w ∧ r.height = h then some (r.bytes, r.contentType)
      else get tbl u w h := by
  simp only [get, List.find?_cons]
  by_cases hc : r.url = u ∧ r.width = w ∧ r.height = h
  · have hb : (r.url == u && r.width == w && r.height == h) = true := by
      simp [hc.1, hc.2.1, hc.2.2]
    rw [hb, if_pos hc]
  · have hb : (r.url == u && r.width == w && r.height == h) = false := by
      rw [Bool.eq_false_iff]
      intro hbt
      have hx : (r.url = u ∧ r.width = w) ∧ r.height = h := by simpa using hbt
      exact hc ⟨hx.1.1, hx.1.2, hx.2⟩
    rw [hb, if_neg hc]

/-- Round trip on the saved key. -/
lemma get_save_same (tbl : List Row) (u : String) (d : List Nat)
    (ct : String) (w h : Int) :
    get (save tbl u d ct w h) u w h = some (d, ct) := by
  rw [save, get_cons, if_pos ⟨rfl, rfl, rfl⟩]

/-- A query for the same url under different dimensions finds nothing
after a save: the head row has the other dimensions and every other row
with this url was removed. -/
lemma get_save_other (tbl : List Row) (u : String) (d : List Nat)
    (ct : String) (w h w' h' : Int) (hne : w' ≠ w ∨ h' ≠ h) :
    get (save tbl u d ct w h) u w' h' = none := by
  rw [save, get_cons, if_neg (by rcases hne with hw | hh <;> simp <;> intro <;> omega)]
  simp only [get]
  rw [find?_filter_ne]

/-! ## Claim theorems -/

/-- C5: saving `(u, data, "image/webp", 800, 420)` over any prior table
contents makes `Get (u, 800, 420)` return exactly the saved bytes and
content type, while `Get (u, 801, 420)` reports NotFound: the dimensions
participate in the lookup. -/
theorem cache_round_trip (tbl : List Row) (u : String) (d : List Nat) :
    get (save tbl u d "image/webp" 800 420) u 800 420 = some (d, "image/webp") ∧
    get (save tbl u d "image/webp" 800 420) u 801 420 = none := by
  refine ⟨get_save_same .., get_save_other _ _ _ _ _ _ _ _ (Or.inl (by decide))⟩

/-- C3 fails on the code: after caching `(u, 800, 420)`, a save for
`(u, 801, 420)` destroys the first row — the schema's `url` column is
UNIQUE, so `INSERT OR REPLACE` replaces on url alone — and the earlier
key's bytes are no longer retrievable. -/
theorem save_cross_key_cex :
    get (save (save [] "u" [1] "image/webp" 800 420) "u" [2] "image/webp" 801 420)
        "u" 800 420 ≠ some ([1], "image/webp") := by
  decide

/-- C3 (amended): rows are uniquely identified by `url` alone; a `Save`
under one key removes the row stored under any other key with the same
url (a later `Get` for the other key reports NotFound), and `Save` never
produces two rows with the same url. -/
theorem save_url_sole_key (tbl : List Row) (u : String) (d₁ d₂ : List Nat)
    (ct₁ ct₂ : String) (w₁ h₁ w₂ h₂ : Int) (hne : w₁ ≠ w₂ ∨ h₁ ≠ h₂)
    (hnd : (tbl.map Row.url).Nodup) :
    get (save (save tbl u d₁ ct₁ w₁ h₁) u d₂ ct₂ w₂ h₂) u w₁ h₁ = none ∧
    ((save tbl u d₁ ct₁ w₁ h₁).map Row.url).Nodup := by
  constructor
  · exact get_save_other _ _ _ _ _ _ _ _ hne
  · simp only [save, List.map_cons, List.nodup_cons]
    constructor
    · intro hmem
      obtain ⟨r, hr, hru⟩ := List.mem_map.mp hmem
      have h2 := (List.mem_filter.mp hr).2
      simp only [Bool.not_eq_true', beq_eq_false_iff_ne, ne_eq] at h2
      exact h2 hru
    · exact hnd.sublist ((List.filter_sublist tbl).map Row.url)

/-- Witness for `save_url_sole_key`. -/
theorem save_url_sole_key_witness :
    get (save (save [] "u" [1] "a" 800 420) "u" [2] "b" 801 420) "u" 800 420 = none ∧
    ((save [] "u" [1] "a" 800 420).map Row.url).Nodup :=
  save_url_sole_key [] "u" [1] [2] "a" "b" 800 420 801 420
    (Or.inl (by decide)) (by decide)

/-- C4 fails on the code: when the embedded domain file cannot be read or
parsed, `NewServer` discards the partially built blocklist and installs a
fresh empty one, so even the hand-curated critical domain
`google-analytics.com` is reported unblocked in the degraded
configuration. -/
theorem degraded_blocklist_cex :
    serverBlocklist none = [] ∧
    isBlocked (serverBlocklist none) "google-analytics.com" = false := by
  constructor
  · rfl
  · decide

/-- C4 (amended): if the embedded domain list cannot be read or parsed,
blocklist construction fails but the server still starts — with an empty
blocklist, so every host (the critical domains included) is reported
unblocked in the degraded configuration. -/
theorem degraded_blocklist_empty :
    (∃ e, newBlocklist none = Except.error e) ∧
    serverBlocklist none = [] ∧
    ∀ host, isBlocked (serverBlocklist none) host = false := by
  refine ⟨⟨"reading or parsing domains.json", rfl⟩, rfl, ?_⟩
  intro host
  simp [isBlocked, serverBlocklist, newBlocklist, List.contains]

/-! ## Dimension parsing lemmas -/

lemma atoi_empty : atoi "" = none := rfl

/-- A string with a successful parse is nonempty. -/
lemma atoi_ne_empty {s : String} {n : Int} (h : atoi s = some n) : s ≠ "" := by
  intro he
  rw [he, atoi_empty] at h
  cases h

/-- `parseIntParam` on a positive parse: the maximum or the value. -/
lemma parseIntParam_parses (v : String) (dflt maxVal n : Int)
    (h : atoi v = some n) (hpos : 0 < n) :
    parseIntParam v dflt maxVal = if maxVal < n then maxVal else n := by
  unfold parseIntParam
  rw [if_neg (atoi_ne_empty h), h]
  show (if n ≤ 0 then dflt else if n > maxVal then maxVal else n) = _
  rw [if_neg (by omega)]

/-- C9: a `width` (resp. `height`) query parameter parsing to a positive
integer above the configured maximum resolves to the maximum — not an
error and not the raw value — while a positive value at or below the
maximum is used as given, whatever the preset-derived default was. -/
theorem dimension_clamping (cfg : Config) (pp wp hp : String) :
    (∀ n : Int, atoi wp = some n → 0 < n →
      (cfg.maxWidth < n → (parseDimensions cfg pp wp hp).1 = cfg.maxWidth) ∧
      (n ≤ cfg.maxWidth → (parseDimensions cfg pp wp hp).1 = n)) ∧
    (∀ n : Int, atoi hp = some n → 0 < n →
      (cfg.maxHeight < n → (parseDimensions cfg pp wp hp).2 = cfg.maxHeight) ∧
      (n ≤ cfg.maxHeight → (parseDimensions cfg pp wp hp).2 = n)) := by
  constructor
  · intro n hn hpos
    have hval : (parseDimensions cfg pp wp hp).1 =
        if cfg.maxWidth < n then cfg.maxWidth else n := by
      simp only [parseDimensions]
      rw [if_pos (atoi_ne_empty hn), parseIntParam_parses _ _ _ _ hn hpos]
    exact ⟨fun hgt => by rw [hval, if_pos hgt],
           fun hle => by rw [hval, if_neg (not_lt.mpr hle)]⟩
  · intro n hn hpos
    have hval : (parseDimensions cfg pp wp hp).2 =
        if cfg.maxHeight < n then cfg.maxHeight else n := by
      simp only [parseDimensions]
      rw [if_pos (atoi_ne_empty hn), parseIntParam_parses _ _ _ _ hn hpos]
    exact ⟨fun hgt => by rw [hval, if_pos hgt],
           fun hle => by rw [hval, if_neg (not_lt.mpr hle)]⟩

/-- Witness for `dimension_clamping`: width 2500 clamps to the default
maximum 1920; height 400 is used as given. -/
theorem dimension_clamping_witness :
    (parseDimensions (defaultConfig "" "") "" "2500" "400").1 =
      (defaultConfig "" "").maxWidth ∧
    (parseDimensions (defaultConfig "" "") "" "2500" "400").2 = 400 := by
  have h := dimension_clamping (defaultConfig "" "") "" "2500" "400"
  exact ⟨(h.1 2500 (by decide) (by decide)).1 (by decide),
         (h.2 400 (by decide) (by decide)).2 (by decide)⟩

/-! ## Handler theorems -/

/-- C10: a request whose user agent the bot filter rejects — shorter than
the configured minimum byte length (20 in the default configuration) or
matching the bot/tool pattern — receives the Forbidden error page with no
collaborator invoked: the cache is not read or written, no permit is
taken and no capture runs. -/
theorem bot_request_rejected (cfg : Config) (req : Request) (w : World)
    (hbot : isBot cfg req.userAgent = true) :
    handleScreenshot cfg req w = (HResponse.forbidden, w.table, []) ∧
    (defaultConfig "" "").minUserAgentLen = 20 := by
  refine ⟨?_, rfl⟩
  simp [handleScreenshot, hbot]

/-- Witness for `bot_request_rejected`: a `curl` user agent. -/
theorem bot_request_rejected_witness :
    handleScreenshot (defaultConfig "" "")
        ⟨"curl/8.0.1", "example.com", "", "", "", "", ""⟩
        ⟨[⟨"x", [9], "image/webp", 800, 420⟩], true, true, Except.ok [7], false,
          ⟨2026, 10, 12, 9, 30, 0⟩⟩ =
      (HResponse.forbidden, [⟨"x", [9], "image/webp", 800, 420⟩], []) ∧
    (defaultConfig "" "").minUserAgentLen = 20 :=
  bot_request_rejected _ _ _ (by decide)

/-- C7: when the capture pipeline fails, the handler performs no `Save`:
the table is untouched, no save invocation appears in the effect trace,
and any previously cached entry answers `Get` exactly as before. -/
theorem capture_failure_preserves_cache (cfg : Config) (req : Request)
    (w : World) (e : String) (hcap : w.captureResult = Except.error e) :
    (handleScreenshot cfg req w).2.1 = w.table ∧
    Effect.cacheSave ∉ (handleScreenshot cfg req w).2.2 ∧
    ∀ u' w' h', get (handleScreenshot cfg req w).2.1 u' w' h' = get w.table u' w' h' := by
  have h1 : (handleScreenshot cfg req w).2.1 = w.table ∧
      Effect.cacheSave ∉ (handleScreenshot cfg req w).2.2 := by
    unfold handleScreenshot
    repeat' split <;> try simp_all
  exact ⟨h1.1, h1.2, fun u' w' h' => by rw [h1.1]⟩

/-- Witness for `capture_failure_preserves_cache`: a navigation timeout
leaves the single cached row in place. -/
theorem capture_failure_preserves_cache_witness :
    (handleScreenshot (defaultConfig "" "")
        ⟨"Mozilla/5.0 (X11; Linux x86_64) AppleWebKit/537.36", "example.com",
          "", "", "", "", ""⟩
        ⟨[⟨"https://example.com", [9], "image/webp", 1200, 630⟩], true, true,
          Except.error "navigation timeout: ctx", false,
          ⟨2026, 10, 12, 9, 30, 0⟩⟩).2.1 =
      [⟨"https://example.com", [9], "image/webp", 1200, 630⟩] ∧
    Effect.cacheSave ∉ (handleScreenshot (defaultConfig "" "")
        ⟨"Mozilla/5.0 (X11; Linux x86_64) AppleWebKit/537.36", "example.com",
          "", "", "", "", ""⟩
        ⟨[⟨"https://example.com", [9], "image/webp", 1200, 630⟩], true, true,
          Except.error "navigation timeout: ctx", false,
          ⟨2026, 10, 12, 9, 30, 0⟩⟩).2.2 ∧
    ∀ u' w' h', get (handleScreenshot (defaultConfig "" "")
        ⟨"Mozilla/5.0 (X11; Linux x86_64) AppleWebKit/537.36", "example.com",
          "", "", "", "", ""⟩
        ⟨[⟨"https://example.com", [9], "image/webp", 1200, 630⟩], true, true,
          Except.error "navigation timeout: ctx", false,
          ⟨2026, 10, 12, 9, 30, 0⟩⟩).2.1 u' w' h' =
      get [⟨"https://example.com", [9], "image/webp", 1200, 630⟩] u' w' h' :=
  capture_failure_preserves_cache _ _ _ "navigation timeout: ctx" rfl

/-- C6: on a cache miss whose capture succeeds (repository configured,
not a full-page request), the handler attempts the `Save` before
answering, and answers with the captured image whether or not the `Save`
succeeds: the table is updated exactly when the save does not fail, and
the response is the fresh image in either case. -/
theorem capture_success_persists (cfg : Config) (req : Request) (w : World)
    (shot : List Nat)
    (hbot : isBot cfg req.userAgent = false)
    (hurl : req.urlParam ≠ "")
    (hfull : req.fullParam ≠ "true")
    (hrepo : w.hasRepo = true)
    (hinm : req.ifNoneMatch ≠ generateETag (normalizeScheme req.urlParam)
      (parseDimensions cfg req.presetParam req.widthParam req.heightParam).1
      (parseDimensions cfg req.presetParam req.widthParam req.heightParam).2 w.now)
    (hmiss : get w.table (normalizeScheme req.urlParam)
      (parseDimensions cfg req.presetParam req.widthParam req.heightParam).1
      (parseDimensions cfg req.presetParam req.widthParam req.heightParam).2 = none)
    (hperm : w.permitFree = true)
    (hcap : w.captureResult = Except.ok shot) :
    handleScreenshot cfg req w =
      (HResponse.freshImage shot (generateETag (normalizeScheme req.urlParam)
        (parseDimensions cfg req.presetParam req.widthParam req.heightParam).1
        (parseDimensions cfg req.presetParam req.widthParam req.heightParam).2 w.now),
       if w.saveFails then w.table
       else save w.table (normalizeScheme req.urlParam) shot "image/webp"
         (parseDimensions cfg req.presetParam req.widthParam req.heightParam).1
         (parseDimensions cfg req.presetParam req.widthParam req.heightParam).2,
       [Effect.cacheGet, Effect.acquire, Effect.runCapture, Effect.cacheSave]) := by
  simp [handleScreenshot, hbot, hurl, hfull, hrepo, hinm, hmiss, hperm, hcap]

/-- Witness for `capture_success_persists`. -/
theorem capture_success_persists_witness :
    handleScreenshot (defaultConfig "" "")
        ⟨"Mozilla/5.0 (X11; Linux x86_64) AppleWebKit/537.36", "example.com",
          "", "", "", "", ""⟩
        ⟨[], true, true, Except.ok [7], false, ⟨2026, 10, 12, 9, 30, 0⟩⟩ =
      (HResponse.freshImage [7] (generateETag (normalizeScheme "example.com")
        800 420 ⟨2026, 10, 12, 9, 30, 0⟩),
       save [] (normalizeScheme "example.com") [7] "image/webp" 800 420,
       [Effect.cacheGet, Effect.acquire, Effect.runCapture, Effect.cacheSave]) :=
  capture_success_persists (defaultConfig "" "") _ _ [7]
    (by decide) (by decide) (by decide) rfl (by decide) rfl rfl rfl

/-! ## Blocklist theorems -/

/-- C1: `IsBlocked` holds exactly when the host is an exact member of the
domain set or some proper dot-separated suffix of its label list that
keeps at least two labels — a label-aligned parent domain, never a bare
TLD — is a member; on the spec's example set, the subdomain is blocked
while the textual-suffix sibling and the unrelated domain are not. -/
theorem isBlocked_characterization (domains : List String) (host : String) :
    (isBlocked domains host = true ↔
      host ∈ domains ∨
        ∃ s : List String, s <:+ splitOnDot host ∧ s ≠ splitOnDot host ∧
          2 ≤ s.length ∧ joinDots s ∈ domains) ∧
    isBlocked ["doubleclick.net"] "ad.doubleclick.net" = true ∧
    isBlocked ["doubleclick.net"] "notdoubleclick.net" = false ∧
    isBlocked ["doubleclick.net"] "google.com" = false := by
  refine ⟨?_, by decide, by decide, by decide⟩
  unfold isBlocked
  simp only [Bool.or_eq_true, List.any_eq_true, List.mem_range,
    Bool.and_eq_true, decide_eq_true_eq, List.contains, List.elem_iff]
  constructor
  · rintro (hm | ⟨i, hilt, ⟨h1i, hi1⟩, hmem⟩)
    · exact Or.inl hm
    · refine Or.inr ⟨(splitOnDot host).drop i, List.drop_suffix i _, ?_, ?_, hmem⟩
      · intro he
        have := congrArg List.length he
        rw [List.length_drop] at this
        omega
      · rw [List.length_drop]
        omega
  · rintro (hm | ⟨s, ⟨t, ht⟩, hne, hlen, hmem⟩)
    · exact Or.inl hm
    · refine Or.inr ⟨t.length, ?_, ⟨?_, ?_⟩, ?_⟩
      · rw [← ht, List.length_append]
        omega
      · rcases Nat.eq_zero_or_pos t.length with h0 | h1
        · exfalso
          rw [List.length_eq_zero] at h0
          rw [h0, List.nil_append] at ht
          exact hne ht
        · omega
      · rw [← ht, List.length_append]
        omega
      · rw [← ht, List.drop_left]
        exact hmem

/-! ## Interception policy theorem -/

/-- C2: `shouldBlock` blocks exactly the union of its six first-match
conditions — font type under font blocking; media/websocket type or a
blocked file extension under media blocking; the non-rendering resource
types unconditionally; favicon/manifest path substrings; and otherwise,
for a type that is neither stylesheet nor document, a blocklisted host —
and for stylesheet and document requests the decision never consults the
blocklist: it is the same under an empty domain set. -/
theorem shouldBlock_characterization (cfg : Config) (domains : List String)
    (reqURL : String) (t : ResourceType) :
    (shouldBlock cfg domains reqURL t = true ↔
      (cfg.blockFonts = true ∧ t = ResourceType.font) ∨
      (cfg.blockMedia = true ∧
        (t = ResourceType.media ∨ t = ResourceType.webSocket ∨
          hasBlockedExtension reqURL = true)) ∨
      t ∈ unconditionalBlockTypes ∨
      (∃ p ∈ blockedPaths, containsSub p reqURL = true) ∨
      (t ≠ ResourceType.stylesheet ∧ t ≠ ResourceType.document ∧
        isBlocked domains (extractHost reqURL) = true)) ∧
    shouldBlock cfg domains reqURL ResourceType.stylesheet =
      shouldBlock cfg [] reqURL ResourceType.stylesheet ∧
    shouldBlock cfg domains reqURL ResourceType.document =
      shouldBlock cfg [] reqURL ResourceType.document := by
  refine ⟨?_, ?_, ?_⟩
  · unfold shouldBlock
    split_ifs with h1 h2 h3 h4 h5 h6 <;>
      simp_all [List.any_eq_true, List.elem_iff, List.contains] <;>
      try tauto
  · unfold shouldBlock
    simp
  · unfold shouldBlock
    simp

/-! ## Base-36 rendering is injective -/

/-- Value of a base-36 digit character. -/
def base36charVal (c : Char) : Nat :=
  if c.toNat ≤ 57 then c.toNat - 48 else c.toNat - 87

/-- Big-endian value of a base-36 digit string. -/
def base36val : List Char → Nat
  | [] => 0
  | c :: rest => base36charVal c * 36 ^ rest.length + base36val rest

lemma base36charVal_digit : ∀ k, k < 36 → base36charVal (base36digit k) = k := by
  decide

lemma base36Aux_acc (fuel : Nat) : ∀ n acc,
    base36Aux fuel n acc = base36Aux fuel n [] ++ acc := by
  induction fuel with
  | zero => intro n acc; rfl
  | succ fuel ih =>
      intro n acc
      by_cases h : n < 36
      · simp [base36Aux, h]
      · simp only [base36Aux, if_neg h]
        rw [ih (n / 36) (base36digit (n % 36) :: acc),
          ih (n / 36) [base36digit (n % 36)], List.append_assoc]
        rfl

lemma base36val_append (l : List Char) (c : Char) :
    base36val (l ++ [c]) = 36 * base36val l + base36charVal c := by
  induction l with
  | nil => simp [base36val]
  | cons d l ih =>
      simp only [List.cons_append, base36val, ih, List.append_eq,
        List.length_append, List.length_cons, List.length_nil]
      ring

lemma base36Aux_decode (fuel : Nat) : ∀ n, n < 36 ^ fuel →
    base36val (base36Aux fuel n []) = n := by
  induction fuel with
  | zero =>
      intro n hn
      interval_cases n
      rfl
  | succ fuel ih =>
      intro n hn
      by_cases h : n < 36
      · simp [base36Aux, h, base36val, base36charVal_digit n h]
      · simp only [base36Aux, if_neg h]
        rw [base36Aux_acc, base36val_append,
          ih (n / 36) (by rw [pow_succ, mul_comm] at hn; exact Nat.div_lt_of_lt_mul hn),
          base36charVal_digit (n % 36) (Nat.mod_lt n (by omega))]
        omega

lemma natToBase36_inj {a b : Nat} (h : natToBase36 a = natToBase36 b) : a = b := by
  have hl : base36Aux (a + 1) a [] = base36Aux (b + 1) b [] :=
    congrArg String.data h
  have ha : a < 36 ^ (a + 1) :=
    lt_of_lt_of_le (Nat.lt_pow_self (by omega) a)
      (Nat.pow_le_pow_right (by omega) (by omega))
  have hb : b < 36 ^ (b + 1) :=
    lt_of_lt_of_le (Nat.lt_pow_self (by omega) b)
      (Nat.pow_le_pow_right (by omega) (by omega))
  rw [← base36Aux_decode (a + 1) a ha, ← base36Aux_decode (b + 1) b hb, hl]

/-! ## ETag time-bucket facts

`generateETag` reads the clock only through the `"2006-01-02-15"` format,
so it is stable inside an hour bucket, and the hashed input changes at
every hour boundary (the hour field of the 13-character timestamp always
changes).  Distinctness of the final 64-bit FNV-1a digests themselves is a
collision-freedom property and is not derivable. -/

lemma padDigits_length (w : Nat) : ∀ n acc,
    (padDigits w n acc).length = w + acc.length := by
  induction w with
  | zero => intro n acc; simp [padDigits]
  | succ w ih =>
      intro n acc
      simp only [padDigits, ih]
      simp only [List.length_cons]
      omega

lemma hourPad_ne : ∀ hh, hh < 24 →
    padDigits 2 (if hh < 23 then hh + 1 else 0) [] ≠ padDigits 2 hh [] := by
  decide

lemma nextHour_hour (t : Time) :
    t.nextHour.hour = if t.hour < 23 then t.hour + 1 else 0 := by
  unfold Time.nextHour
  split_ifs <;> rfl

lemma formatHour_data (t : Time) :
    (formatHour t).data =
      (padDigits 4 t.year [] ++ ['-'] ++ padDigits 2 t.month [] ++ ['-'] ++
        padDigits 2 t.day [] ++ ['-']) ++ padDigits 2 t.hour [] := by
  simp [formatHour]

/-- Inside one hour bucket the ETag is literally the same token: minutes
and seconds are invisible to the format string. -/
lemma generateETag_bucket_stable (u : String) (wd ht : Int) (t t' : Time)
    (h1 : t.year = t'.year) (h2 : t.month = t'.month)
    (h3 : t.day = t'.day) (h4 : t.hour = t'.hour) :
    generateETag u wd ht t = generateETag u wd ht t' := by
  unfold generateETag formatHour
  rw [h1, h2, h3, h4]

/-- Crossing into the following hour always changes the formatted
timestamp (its hour field changes even across a day rollover), hence the
byte string fed to the hash. -/
lemma formatHour_nextHour_ne (t : Time) (hh : t.hour ≤ 23) :
    formatHour t.nextHour ≠ formatHour t := by
  intro he
  have hdata := congrArg String.data he
  rw [formatHour_data, formatHour_data] at hdata
  have hlen : (padDigits 4 t.nextHour.year [] ++ ['-'] ++
      padDigits 2 t.nextHour.month [] ++ ['-'] ++
      padDigits 2 t.nextHour.day [] ++ ['-']).length =
      (padDigits 4 t.year [] ++ ['-'] ++ padDigits 2 t.month [] ++ ['-'] ++
        padDigits 2 t.day [] ++ ['-']).length := by
    simp [padDigits_length]
  have htl := List.append_inj_right hdata hlen
  rw [nextHour_hour] at htl
  exact hourPad_ne t.hour (by omega) htl

end Screenshot
